import Mathlib

/-!
Verification of the provider-abstraction layer of `go-ai-grok-query`.

The definitions below are a shallow embedding of the Go sources under
`pkg/llm` (and the model types / Gemini streaming adapter found in the
repository's unnamed parts).  Pure Go functions become Lean functions;
the streaming loops become structural recursion over the list of frames
the decoder would produce; `json.RawMessage` byte slices are carried as
opaque `String`s; fallible Go functions return `Except String`.
External JSON parsing (`json.Unmarshal` on arbitrary bytes) is
abstracted as a parameter or as the already-decoded wire value, exactly
at the boundary where the Go code hands bytes to the standard library.
-/

namespace GoAiLlm

/-- Model type `ToolCall` (part_014): id, name, raw JSON argument bytes. -/
structure ToolCall where
  id : String
  name : String
  arguments : String
  deriving Repr, DecidableEq

/-- Model type `Usage` (part_014): token counts. -/
structure Usage where
  promptTokens : Int
  completionTokens : Int
  totalTokens : Int
  deriving Repr, DecidableEq

/-- Role constants (part_014). -/
def RoleSystem : String := "system"

def RoleUser : String := "user"

def RoleAssistant : String := "assistant"

def RoleTool : String := "tool"

/-- Model type `LLMMessage` (part_014). -/
structure LLMMessage where
  role : String
  content : String
  name : String := ""
  toolCallID : String := ""
  toolCalls : List ToolCall := []
  deriving Repr, DecidableEq

/-- Model type `LLMResponse` (part_014); the raw debug bytes are omitted. -/
structure LLMResponse where
  text : String := ""
  toolCalls : List ToolCall := []
  finishReason : String := ""
  usage : Option Usage := none
  deriving Repr, DecidableEq

/-- Model type `Delta` (part_014): one streaming increment. -/
structure Delta where
  text : String := ""
  toolCalls : List ToolCall := []
  done : Bool := false
  finishReason : String := ""
  deriving Repr, DecidableEq

/-- Concatenation of the `text` fields of a list of deltas, in order. -/
def concatTexts : List Delta → String
  | [] => ""
  | d :: rest => d.text ++ concatTexts rest

/-- Concatenation of a list of strings, in order. -/
def concatStrings : List String → String
  | [] => ""
  | s :: rest => s ++ concatStrings rest

/-! ## OpenAI-compatible event-stream decoding

Embedding of `openAICompatibleProvider.Stream` (openai_compatible.go,
lines 293-353): the SSE scanner loop over the response body's lines.
The body is the list of lines `bufio.Scanner` yields; `json.Unmarshal`
of a `data:` payload is abstracted as a `parse` function returning
`none` exactly when unmarshalling fails. -/

/-- Wire struct `streamChoice` (openai_compatible.go): `delta.content`
and `finish_reason` of one streamed choice. -/
structure StreamChoice where
  deltaContent : String
  finishReason : String
  deriving Repr, DecidableEq

/-- Wire struct `streamChunk` (openai_compatible.go): choices plus the
usage block sometimes present on the last chunk. -/
structure StreamChunk where
  choices : List StreamChoice
  usage : Option Usage
  deriving Repr, DecidableEq

/-- Accumulator of the SSE loop: `fullText` builder, captured finish
reason and usage of `finalResponse`, and the deltas emitted so far
through `onDelta` (in call order). -/
structure SseState where
  fullText : String
  finishReason : String
  usage : Option Usage
  deltas : List Delta
  deriving Repr, DecidableEq

/-- Body of the SSE loop for one successfully unmarshalled chunk
(openai_compatible.go, lines 327-344). -/
def sseProcessChunk (st : SseState) (chunk : StreamChunk) : SseState :=
  let st1 :=
    match chunk.choices with
    | [] => st
    | c :: _ =>
      let st' :=
        if c.deltaContent ≠ "" then
          { st with fullText := st.fullText ++ c.deltaContent,
                    deltas := st.deltas ++ [{ text := c.deltaContent }] }
        else st
      if c.finishReason ≠ "" then { st' with finishReason := c.finishReason } else st'
  match chunk.usage with
  | some u => { st1 with usage := some u }
  | none => st1

/-- `strings.HasPrefix(line, "data: ")`, written over the character
list so that the kernel can evaluate it on literals. -/
def hasDataMarker (line : String) : Bool :=
  line.data.take 6 == "data: ".data

/-- `strings.TrimPrefix(line, "data: ")` on a line already known to
carry the marker: drop the six marker characters. -/
def dropDataMarker (line : String) : String :=
  ⟨line.data.drop 6⟩

/-- The SSE scanner loop (openai_compatible.go, lines 310-345): skip
lines without the `data: ` marker, stop at `data: [DONE]`, skip frames
that fail to unmarshal, process the rest. -/
def sseLoop (parse : String → Option StreamChunk) : List String → SseState → SseState
  | [], st => st
  | line :: rest, st =>
    if hasDataMarker line then
      let data := dropDataMarker line
      if data = "[DONE]" then st
      else
        match parse data with
        | none => sseLoop parse rest st
        | some chunk => sseLoop parse rest (sseProcessChunk st chunk)
    else sseLoop parse rest st

/-- `openAICompatibleProvider.Stream` after the HTTP exchange: run the
scanner loop from the empty state, then emit the final Done delta and
materialize `finalResponse` (openai_compatible.go, lines 347-353).
Returns the deltas passed to `onDelta` (in order) and the response. -/
def openAICompatibleStream (parse : String → Option StreamChunk)
    (lines : List String) : List Delta × LLMResponse :=
  let st := sseLoop parse lines { fullText := "", finishReason := "", usage := none, deltas := [] }
  (st.deltas ++ [{ done := true, finishReason := st.finishReason }],
   { text := st.fullText, finishReason := st.finishReason, usage := st.usage })

example :
    openAICompatibleStream
      (fun s => if s = "c1" then some { choices := [{ deltaContent := "Hello,", finishReason := "" }], usage := none }
        else if s = "c2" then some { choices := [{ deltaContent := " world!", finishReason := "stop" }], usage := none }
        else none)
      ["data: c1", ": keepalive", "data: c2", "data: [DONE]", "data: c1"]
      = ([{ text := "Hello," }, { text := " world!" },
          { done := true, finishReason := "stop" }],
         { text := "Hello, world!", finishReason := "stop", usage := none }) := by
  decide

theorem concatTexts_append (l₁ l₂ : List Delta) :
    concatTexts (l₁ ++ l₂) = concatTexts l₁ ++ concatTexts l₂ := by
  induction l₁ with
  | nil => simp [concatTexts]
  | cons d rest ih => simp [concatTexts, ih, String.append_assoc]

theorem sseProcessChunk_step (st : SseState) (chunk : StreamChunk) :
    ∃ ds, (sseProcessChunk st chunk).deltas = st.deltas ++ ds
      ∧ (sseProcessChunk st chunk).fullText = st.fullText ++ concatTexts ds
      ∧ ∀ d ∈ ds, d.done = false ∧ d.text ≠ "" := by
  unfold sseProcessChunk
  cases chunk.usage with
  | some u =>
    cases hch : chunk.choices with
    | nil => exact ⟨[], by simp [concatTexts]⟩
    | cons c cs =>
      by_cases ht : c.deltaContent = "" <;> by_cases hf : c.finishReason = ""
      · exact ⟨[], by simp [ht, hf, concatTexts]⟩
      · exact ⟨[], by simp [ht, hf, concatTexts]⟩
      · exact ⟨[{ text := c.deltaContent }], by simp [ht, hf, concatTexts, String.append_empty]⟩
      · exact ⟨[{ text := c.deltaContent }], by simp [ht, hf, concatTexts, String.append_empty]⟩
  | none =>
    cases hch : chunk.choices with
    | nil => exact ⟨[], by simp [concatTexts]⟩
    | cons c cs =>
      by_cases ht : c.deltaContent = "" <;> by_cases hf : c.finishReason = ""
      · exact ⟨[], by simp [ht, hf, concatTexts]⟩
      · exact ⟨[], by simp [ht, hf, concatTexts]⟩
      · exact ⟨[{ text := c.deltaContent }], by simp [ht, hf, concatTexts, String.append_empty]⟩
      · exact ⟨[{ text := c.deltaContent }], by simp [ht, hf, concatTexts, String.append_empty]⟩

theorem sseLoop_deltas (parse : String → Option StreamChunk) (lines : List String)
    (st : SseState) :
    ∃ ds, (sseLoop parse lines st).deltas = st.deltas ++ ds
      ∧ (sseLoop parse lines st).fullText = st.fullText ++ concatTexts ds
      ∧ ∀ d ∈ ds, d.done = false ∧ d.text ≠ "" := by
  induction lines generalizing st with
  | nil => exact ⟨[], by simp [sseLoop, concatTexts]⟩
  | cons line rest ih =>
    by_cases hm : hasDataMarker line
    · by_cases hdone : dropDataMarker line = "[DONE]"
      · exact ⟨[], by simp [sseLoop, hm, hdone, concatTexts]⟩
      · cases hp : parse (dropDataMarker line) with
        | none =>
          obtain ⟨ds, h1, h2, h3⟩ := ih st
          exact ⟨ds, by simpa [sseLoop, hm, hdone, hp] using ⟨h1, h2, h3⟩⟩
        | some chunk =>
          obtain ⟨ds1, g1, g2, g3⟩ := sseProcessChunk_step st chunk
          obtain ⟨ds2, h1, h2, h3⟩ := ih (sseProcessChunk st chunk)
          refine ⟨ds1 ++ ds2, ?_, ?_, ?_⟩
          · simp [sseLoop, hm, hdone, hp, h1, g1]
          · simp [sseLoop, hm, hdone, hp, h2, g2, concatTexts_append, String.append_assoc]
          · intro d hd
            rcases List.mem_append.mp hd with h | h
            · exact g3 d h
            · exact h3 d h
    · obtain ⟨ds, h1, h2, h3⟩ := ih st
      exact ⟨ds, by simpa [sseLoop, hm] using ⟨h1, h2, h3⟩⟩

/-- C1: for an event-stream body terminated by a `data: [DONE]` frame,
`openAICompatibleProvider.Stream` emits exactly one Done delta, that
delta is last and carries the captured finish reason of the returned
response, and the response text is the in-order concatenation of the
non-empty text fragments passed to `onDelta`. -/
theorem openAICompatibleStream_done_and_concat (parse : String → Option StreamChunk)
    (lines : List String) (hdone : "data: [DONE]" ∈ lines) :
    ((openAICompatibleStream parse lines).1.filter (fun d => d.done)).length = 1
    ∧ (openAICompatibleStream parse lines).1.getLast? =
        some { done := true, finishReason := (openAICompatibleStream parse lines).2.finishReason }
    ∧ (openAICompatibleStream parse lines).2.text =
        concatTexts ((openAICompatibleStream parse lines).1.filter (fun d => d.text != "")) := by
  obtain ⟨ds, h1, h2, h3⟩ :=
    sseLoop_deltas parse lines { fullText := "", finishReason := "", usage := none, deltas := [] }
  have hfd : ds.filter (fun d => d.done) = [] := by
    refine List.filter_eq_nil_iff.mpr ?_
    intro d hd
    simp [(h3 d hd).1]
  have hft : ds.filter (fun d => d.text != "") = ds := by
    refine List.filter_eq_self.mpr ?_
    intro d hd
    simpa using (h3 d hd).2
  refine ⟨?_, ?_, ?_⟩
  · simp [openAICompatibleStream, h1, List.filter_append, hfd]
  · simp [openAICompatibleStream, h1, List.getLast?_concat]
  · simp [openAICompatibleStream, h1, h2, List.filter_append, hft,
      concatTexts_append, concatTexts, String.append_empty, String.empty_append]

/-- Concrete parse function for the C1 witness: two recognizable chunk
payloads, everything else fails to unmarshal. -/
def sseParseEx : String → Option StreamChunk := fun s =>
  if s = "c1" then some { choices := [{ deltaContent := "Hello,", finishReason := "" }], usage := none }
  else if s = "c2" then some { choices := [{ deltaContent := " world!", finishReason := "stop" }], usage := none }
  else none

/-- Concrete event-stream body for the C1 witness. -/
def sseLinesEx : List String := ["data: c1", "data: c2", "data: [DONE]"]

/-- Witness for C1 at a concrete `[DONE]`-terminated stream. -/
theorem openAICompatibleStream_done_and_concat_witness :
    ((openAICompatibleStream sseParseEx sseLinesEx).1.filter (fun d => d.done)).length = 1
    ∧ (openAICompatibleStream sseParseEx sseLinesEx).1.getLast? =
        some { done := true, finishReason := (openAICompatibleStream sseParseEx sseLinesEx).2.finishReason }
    ∧ (openAICompatibleStream sseParseEx sseLinesEx).2.text =
        concatTexts ((openAICompatibleStream sseParseEx sseLinesEx).1.filter (fun d => d.text != "")) :=
  openAICompatibleStream_done_and_concat sseParseEx sseLinesEx (by decide)

/-! ## OpenAI-compatible non-stream response decoding

Embedding of `unmarshalResponse` (openai_compatible.go, lines 100-151).
The input is the wire value the outer `json.Unmarshal` produced: a
choices list (each choice with an optional message, mirroring the
`*struct` pointer that is `nil` when the key is absent) and an optional
usage block.  The nested `json.Unmarshal` of each tool call's raw
`function` bytes is mirrored by an `Option WireFunction`: `none` is a
raw value that fails to unmarshal. -/

/-- The `{name, arguments}` object decoded from a tool call's raw
`function` bytes (openai_compatible.go, lines 137-140). -/
structure WireFunction where
  name : String
  arguments : String
  deriving Repr, DecidableEq

/-- One element of `choices[0].message.tool_calls` on the wire. -/
structure WireToolCall where
  id : String
  type : String
  function : Option WireFunction
  deriving Repr, DecidableEq

/-- The `message` object of one wire choice. -/
structure WireMessage where
  role : String
  content : String
  toolCalls : List WireToolCall
  deriving Repr, DecidableEq

/-- One element of `choices` on the wire; `message` is `none` when the
JSON had no (or a null) message object. -/
structure WireChoice where
  finishReason : String
  message : Option WireMessage
  deriving Repr, DecidableEq

/-- The whole non-stream wire response. -/
structure WireResponse where
  choices : List WireChoice
  usage : Option Usage
  deriving Repr, DecidableEq

/-- The tool-call loop of `unmarshalResponse` (lines 136-149): decode
each call's `function` bytes, abort on the first failure, otherwise
append `{id, name, arguments}` in order. -/
def unmarshalToolCalls : List WireToolCall → Except String (List ToolCall)
  | [] => .ok []
  | tc :: rest =>
    match tc.function with
    | none => .error "unmarshal tool function"
    | some fn =>
      match unmarshalToolCalls rest with
      | .error e => .error e
      | .ok tcs => .ok ({ id := tc.id, name := fn.name, arguments := fn.arguments } :: tcs)

/-- `unmarshalResponse` (openai_compatible.go, lines 100-151): reject a
response with zero choices or a nil first message, then build the
`LLMResponse` from the first choice. -/
def unmarshalResponse (wire : WireResponse) : Except String LLMResponse :=
  match wire.choices with
  | [] => .error "no choices in response"
  | first :: _ =>
    match first.message with
    | none => .error "first choice has nil message"
    | some msg =>
      match unmarshalToolCalls msg.toolCalls with
      | .error e => .error e
      | .ok tcs =>
        .ok { text := msg.content, toolCalls := tcs,
              finishReason := first.finishReason, usage := wire.usage }

theorem unmarshalToolCalls_ok (tcs : List WireToolCall)
    (hfn : ∀ tc ∈ tcs, tc.function.isSome) :
    unmarshalToolCalls tcs = .ok (tcs.map (fun tc =>
      { id := tc.id, name := (tc.function.getD { name := "", arguments := "" }).name,
        arguments := (tc.function.getD { name := "", arguments := "" }).arguments })) := by
  induction tcs with
  | nil => rfl
  | cons tc rest ih =>
    obtain ⟨fn, hfn1⟩ := Option.isSome_iff_exists.mp (hfn tc (by simp))
    have ih' := ih (fun t ht => hfn t (List.mem_cons_of_mem _ ht))
    simp [unmarshalToolCalls, hfn1, ih']

/-- C2: a well-formed non-stream reply with at least one choice, a
non-nil first message and decodable tool-call `function` bytes is
accepted, with `Text = choices[0].message.content` and one `ToolCall`
per wire tool call, in order, keeping id, name and raw argument
bytes. -/
theorem unmarshalResponse_ok (wire : WireResponse) (first : WireChoice)
    (rest : List WireChoice) (msg : WireMessage)
    (hch : wire.choices = first :: rest) (hmsg : first.message = some msg)
    (hfn : ∀ tc ∈ msg.toolCalls, tc.function.isSome) :
    unmarshalResponse wire = .ok
      { text := msg.content,
        toolCalls := msg.toolCalls.map (fun tc =>
          { id := tc.id, name := (tc.function.getD { name := "", arguments := "" }).name,
            arguments := (tc.function.getD { name := "", arguments := "" }).arguments }),
        finishReason := first.finishReason,
        usage := wire.usage } := by
  simp [unmarshalResponse, hch, hmsg, unmarshalToolCalls_ok msg.toolCalls hfn]

/-- Concrete wire response for the C2 witness: one choice, a message
with text and two tool calls. -/
def wireRespEx : WireResponse :=
  { choices := [{ finishReason := "tool_calls",
                  message := some { role := "assistant", content := "thinking",
                                    toolCalls := [
                                      { id := "call_1", type := "function",
                                        function := some { name := "get_weather", arguments := "\x7b\"city\":\"Lausanne\"\x7d" } },
                                      { id := "call_2", type := "function",
                                        function := some { name := "get_time", arguments := "\x7b\x7d" } }] } }],
    usage := some { promptTokens := 3, completionTokens := 5, totalTokens := 8 } }

/-- Witness for C2 at a concrete wire response. -/
theorem unmarshalResponse_ok_witness :
    unmarshalResponse wireRespEx = .ok
      { text := "thinking",
        toolCalls := [
          { id := "call_1", name := "get_weather", arguments := "\x7b\"city\":\"Lausanne\"\x7d" },
          { id := "call_2", name := "get_time", arguments := "\x7b\x7d" }],
        finishReason := "tool_calls",
        usage := wireRespEx.usage } :=
  unmarshalResponse_ok wireRespEx
    { finishReason := "tool_calls",
      message := some { role := "assistant", content := "thinking",
                        toolCalls := [
                          { id := "call_1", type := "function",
                            function := some { name := "get_weather", arguments := "\x7b\"city\":\"Lausanne\"\x7d" } },
                          { id := "call_2", type := "function",
                            function := some { name := "get_time", arguments := "\x7b\x7d" } }] } }
    []
    { role := "assistant", content := "thinking",
      toolCalls := [
        { id := "call_1", type := "function",
          function := some { name := "get_weather", arguments := "\x7b\"city\":\"Lausanne\"\x7d" } },
        { id := "call_2", type := "function",
          function := some { name := "get_time", arguments := "\x7b\x7d" } }] }
    (by rfl) (by rfl) (by decide)

/-- C7: a body that parses as JSON but has zero choices, or whose first
choice has a nil message, is rejected by `unmarshalResponse` with a
decode error. -/
theorem unmarshalResponse_rejects (wire : WireResponse)
    (h : wire.choices = [] ∨
      ∃ first rest, wire.choices = first :: rest ∧ first.message = none) :
    ∃ e, unmarshalResponse wire = .error e := by
  rcases h with h | ⟨first, rest, hch, hmsg⟩
  · refine ⟨"no choices in response", ?_⟩
    simp [unmarshalResponse, h]
  · refine ⟨"first choice has nil message", ?_⟩
    simp [unmarshalResponse, hch, hmsg]

/-- Witness for C7 at a concrete zero-choice wire response. -/
theorem unmarshalResponse_rejects_witness :
    ∃ e, unmarshalResponse { choices := [], usage := none } = .error e :=
  unmarshalResponse_rejects { choices := [], usage := none } (Or.inl rfl)

/-! ## Gemini streaming decoder

Embedding of `GeminiProvider.Stream` (part_006, lines 232-283): the
body is one JSON array of response objects.  The decoder first reads a
token and fails unless it is `[`; then it decodes one object per
iteration while elements remain.  The already-tokenized body is
modelled as the opening token (`none` when reading it fails) plus the
list of array elements, each `none` when `decoder.Decode` fails on it
(the decoder consumes the ill-typed value, the loop logs and
continues). -/

/-- One JSON token as produced by `decoder.Token()`; the code only
compares against `json.Delim('[')`. -/
inductive JsonToken where
  | arrayOpen
  | arrayClose
  | objectOpen
  | objectClose
  | stringTok (s : String)
  | numberTok (n : Int)
  | boolTok (b : Bool)
  | nullTok
  deriving Repr, DecidableEq

/-- Wire struct `geminiResponse.candidates[].content.parts[]`. -/
structure GeminiPart where
  text : String
  deriving Repr, DecidableEq

/-- Wire struct `geminiResponse.candidates[].content`. -/
structure GeminiContent where
  parts : List GeminiPart
  deriving Repr, DecidableEq

/-- Wire struct `geminiResponse.candidates[]`. -/
structure GeminiCandidate where
  content : GeminiContent
  finishReason : String
  deriving Repr, DecidableEq

/-- Wire struct `geminiResponse.usageMetadata`. -/
structure GeminiUsageMetadata where
  promptTokenCount : Int
  candidatesTokenCount : Int
  totalTokenCount : Int
  deriving Repr, DecidableEq

/-- Wire struct `geminiResponse` (gemini.go / part_006). -/
structure GeminiResponse where
  candidates : List GeminiCandidate
  usage : GeminiUsageMetadata
  deriving Repr, DecidableEq

/-- The tokenized Gemini streaming body. -/
structure GeminiStreamBody where
  firstToken : Option JsonToken
  elements : List (Option GeminiResponse)
  deriving Repr, DecidableEq

/-- Accumulator of the Gemini stream loop: `fullText` builder, captured
finish reason and usage of `finalResponse`, and the deltas emitted so
far through `onDelta` (in call order). -/
structure GeminiState where
  fullText : String
  finishReason : String
  usage : Option Usage
  deltas : List Delta
  deriving Repr, DecidableEq

/-- Body of the Gemini loop for one successfully decoded object
(part_006, lines 255-276): the text of the first part of the first
candidate is appended (never substituted) and emitted as a delta;
a non-empty finish reason replaces the captured one; a positive
`totalTokenCount` replaces the captured usage. -/
def geminiProcessChunk (st : GeminiState) (chunk : GeminiResponse) : GeminiState :=
  let st1 :=
    match chunk.candidates with
    | [] => st
    | cand :: _ =>
      let st' :=
        match cand.content.parts with
        | [] => st
        | part :: _ =>
          if part.text ≠ "" then
            { st with fullText := st.fullText ++ part.text,
                      deltas := st.deltas ++ [{ text := part.text }] }
          else st
      if cand.finishReason ≠ "" then { st' with finishReason := cand.finishReason } else st'
  if chunk.usage.totalTokenCount > 0 then
    { st1 with usage := some { promptTokens := chunk.usage.promptTokenCount,
                               completionTokens := chunk.usage.candidatesTokenCount,
                               totalTokens := chunk.usage.totalTokenCount } }
  else st1

/-- The `for decoder.More()` loop (part_006, lines 247-277): a failed
`Decode` is logged and skipped, a decoded object is processed. -/
def geminiLoop : List (Option GeminiResponse) → GeminiState → GeminiState
  | [], st => st
  | none :: rest, st => geminiLoop rest st
  | some chunk :: rest, st => geminiLoop rest (geminiProcessChunk st chunk)

/-- `GeminiProvider.Stream` after the HTTP exchange (part_006, lines
232-283): fail unless the first token is `[`, run the element loop,
then emit the final Done delta and materialize the response.  Returns
the deltas passed to `onDelta` (in order) and the outcome. -/
def geminiStream (body : GeminiStreamBody) : List Delta × Except String LLMResponse :=
  match body.firstToken with
  | none => ([], .error "failed to read opening token of JSON array")
  | some t =>
    if t ≠ JsonToken.arrayOpen then
      ([], .error "expected opening bracket at start of stream")
    else
      let st := geminiLoop body.elements
        { fullText := "", finishReason := "", usage := none, deltas := [] }
      (st.deltas ++ [{ done := true, finishReason := st.finishReason }],
       .ok { text := st.fullText, finishReason := st.finishReason, usage := st.usage })

/-- The text fragment one decoded object contributes: the text of the
first part of the first candidate, if any. -/
def geminiChunkText (chunk : GeminiResponse) : String :=
  match chunk.candidates with
  | [] => ""
  | cand :: _ =>
    match cand.content.parts with
    | [] => ""
    | part :: _ => part.text

theorem geminiProcessChunk_step (st : GeminiState) (chunk : GeminiResponse) :
    ∃ ds, (geminiProcessChunk st chunk).deltas = st.deltas ++ ds
      ∧ (geminiProcessChunk st chunk).fullText = st.fullText ++ geminiChunkText chunk
      ∧ concatTexts ds = geminiChunkText chunk
      ∧ ∀ d ∈ ds, d.done = false ∧ d.text ≠ "" := by
  unfold geminiProcessChunk geminiChunkText
  by_cases hu : chunk.usage.totalTokenCount > 0 <;>
  · rcases hc : chunk.candidates with _ | ⟨cand, cands⟩
    · exact ⟨[], by simp [hu, hc, concatTexts, String.append_empty]⟩
    · rcases hp : cand.content.parts with _ | ⟨part, parts⟩
      · by_cases hf : cand.finishReason = ""
        · exact ⟨[], by simp [hu, hc, hp, hf, concatTexts, String.append_empty]⟩
        · exact ⟨[], by simp [hu, hc, hp, hf, concatTexts, String.append_empty]⟩
      · by_cases ht : part.text = "" <;> by_cases hf : cand.finishReason = ""
        · exact ⟨[], by simp [hu, hc, hp, ht, hf, concatTexts, String.append_empty]⟩
        · exact ⟨[], by simp [hu, hc, hp, ht, hf, concatTexts, String.append_empty]⟩
        · exact ⟨[{ text := part.text }], by simp [hu, hc, hp, ht, hf, concatTexts, String.append_empty]⟩
        · exact ⟨[{ text := part.text }], by simp [hu, hc, hp, ht, hf, concatTexts, String.append_empty]⟩

theorem geminiLoop_deltas (elems : List (Option GeminiResponse)) (st : GeminiState) :
    ∃ ds, (geminiLoop elems st).deltas = st.deltas ++ ds
      ∧ (geminiLoop elems st).fullText
          = st.fullText ++ concatStrings ((elems.filterMap id).map geminiChunkText)
      ∧ concatTexts ds = concatStrings ((elems.filterMap id).map geminiChunkText)
      ∧ ∀ d ∈ ds, d.done = false ∧ d.text ≠ "" := by
  induction elems generalizing st with
  | nil => exact ⟨[], by simp [geminiLoop, concatTexts, concatStrings, String.append_empty]⟩
  | cons e rest ih =>
    cases e with
    | none =>
      obtain ⟨ds, h1, h2, h3, h4⟩ := ih st
      exact ⟨ds, by simpa [geminiLoop] using ⟨h1, h2, h3, h4⟩⟩
    | some chunk =>
      obtain ⟨ds1, g1, g2, g3, g4⟩ := geminiProcessChunk_step st chunk
      obtain ⟨ds2, h1, h2, h3, h4⟩ := ih (geminiProcessChunk st chunk)
      refine ⟨ds1 ++ ds2, ?_, ?_, ?_, ?_⟩
      · simp [geminiLoop, h1, g1]
      · simp [geminiLoop, h2, g2, concatStrings, String.append_assoc]
      · simp [concatTexts_append, g3, h3, concatStrings]
      · intro d hd
        rcases List.mem_append.mp hd with h | h
        · exact g4 d h
        · exact h4 d h

/-- C3: a Gemini stream that is one JSON array of well-formed response
objects, with the text split across two or more objects, is decoded
losslessly: the final text is the in-order concatenation of every
object's text fragment, and also of all non-empty emitted delta
texts. -/
theorem geminiStream_lossless (elems : List GeminiResponse) (h2 : 2 ≤ elems.length) :
    ∃ resp,
      (geminiStream { firstToken := some .arrayOpen, elements := elems.map some }).2 = .ok resp
      ∧ resp.text = concatStrings (elems.map geminiChunkText)
      ∧ resp.text = concatTexts
          ((geminiStream { firstToken := some .arrayOpen, elements := elems.map some }).1.filter
            (fun d => d.text != "")) := by
  obtain ⟨ds, h1, h2', h3, h4⟩ := geminiLoop_deltas (elems.map some)
    { fullText := "", finishReason := "", usage := none, deltas := [] }
  have hid : (elems.map some).filterMap id = elems := by
    simp [List.filterMap_map]
  have hft : ds.filter (fun d => d.text != "") = ds := by
    refine List.filter_eq_self.mpr ?_
    intro d hd
    simpa using (h4 d hd).2
  set st := geminiLoop (elems.map some)
    { fullText := "", finishReason := "", usage := none, deltas := [] } with hst
  have hstream : geminiStream { firstToken := some .arrayOpen, elements := elems.map some }
      = (st.deltas ++ [{ done := true, finishReason := st.finishReason }],
         .ok { text := st.fullText, finishReason := st.finishReason, usage := st.usage }) := by
    simp [geminiStream]
  refine ⟨{ text := st.fullText, finishReason := st.finishReason, usage := st.usage }, ?_, ?_, ?_⟩
  · rw [hstream]
  · rw [hid] at h2'
    simpa [String.empty_append] using h2'
  · rw [hstream]
    simp only [h1]
    simp [List.filter_append, hft, concatTexts_append, concatTexts,
      String.append_empty, String.empty_append, h3, hid]
    rw [hid] at h2'
    simpa [String.empty_append] using h2'

/-- First well-formed streamed object of the concrete examples. -/
def geminiChunkEx1 : GeminiResponse :=
  { candidates := [{ content := { parts := [{ text := "Hello" }] }, finishReason := "" }],
    usage := { promptTokenCount := 0, candidatesTokenCount := 0, totalTokenCount := 0 } }

/-- Second well-formed streamed object of the concrete examples. -/
def geminiChunkEx2 : GeminiResponse :=
  { candidates := [{ content := { parts := [{ text := " world" }] }, finishReason := "STOP" }],
    usage := { promptTokenCount := 1, candidatesTokenCount := 2, totalTokenCount := 3 } }

/-- Concrete two-object split body for the C3 witness. -/
def geminiElemsEx : List GeminiResponse := [geminiChunkEx1, geminiChunkEx2]

/-- Witness for C3 at a concrete two-object split stream. -/
theorem geminiStream_lossless_witness :
    ∃ resp,
      (geminiStream { firstToken := some .arrayOpen, elements := geminiElemsEx.map some }).2 = .ok resp
      ∧ resp.text = concatStrings (geminiElemsEx.map geminiChunkText)
      ∧ resp.text = concatTexts
          ((geminiStream { firstToken := some .arrayOpen, elements := geminiElemsEx.map some }).1.filter
            (fun d => d.text != "")) :=
  geminiStream_lossless geminiElemsEx (by decide)

/-- C5: when the first token of the Gemini streaming body is not `[`,
`GeminiProvider.Stream` fails before emitting any delta. -/
theorem geminiStream_requires_open_bracket (body : GeminiStreamBody) (t : JsonToken)
    (ht : body.firstToken = some t) (hne : t ≠ JsonToken.arrayOpen) :
    (geminiStream body).1 = [] ∧ ∃ e, (geminiStream body).2 = .error e := by
  refine ⟨?_, "expected opening bracket at start of stream", ?_⟩ <;>
    simp [geminiStream, ht, hne]

/-- Witness for C5 at a body starting with `{` instead of `[`. -/
theorem geminiStream_requires_open_bracket_witness :
    (geminiStream { firstToken := some .objectOpen, elements := [] }).1 = []
    ∧ ∃ e, (geminiStream { firstToken := some .objectOpen, elements := [] }).2 = .error e :=
  geminiStream_requires_open_bracket
    { firstToken := some .objectOpen, elements := [] } .objectOpen rfl (by decide)

/-- The concrete Gemini body of the C4 counterexample: a well-formed
element, a malformed element, then another well-formed element. -/
def geminiBodyWithMalformed : GeminiStreamBody :=
  { firstToken := some .arrayOpen,
    elements := [some geminiChunkEx1, none, some geminiChunkEx2] }

/-- Counterexample to C4: a stream `[ok "Hello", malformed, ok " world"]`
is not aborted — the malformed element is skipped, the later element is
processed, and the stream completes successfully with text
`"Hello world"`. -/
theorem geminiStream_malformed_skipped_cex :
    (geminiStream geminiBodyWithMalformed).2
      = .ok { text := "Hello world", finishReason := "STOP",
              usage := some { promptTokens := 1, completionTokens := 2, totalTokens := 3 } }
    ∧ (geminiStream geminiBodyWithMalformed).1
      = [{ text := "Hello" }, { text := " world" }, { done := true, finishReason := "STOP" }] :=
  ⟨rfl, rfl⟩

theorem geminiLoop_skips_malformed (elems : List (Option GeminiResponse)) (st : GeminiState) :
    geminiLoop elems st = geminiLoop ((elems.filterMap id).map some) st := by
  induction elems generalizing st with
  | nil => rfl
  | cons e rest ih =>
    cases e with
    | none => simpa [geminiLoop] using ih st
    | some chunk => simpa [geminiLoop] using ih (geminiProcessChunk st chunk)

/-- C4 (amended): a malformed array element is logged and skipped; the
stream is not aborted, and decoding proceeds exactly as it would on the
subsequence of well-formed elements. -/
theorem geminiStream_skips_malformed (elems : List (Option GeminiResponse)) :
    geminiStream { firstToken := some .arrayOpen, elements := elems }
      = geminiStream { firstToken := some .arrayOpen,
                       elements := (elems.filterMap id).map some } := by
  simp [geminiStream, geminiLoop_skips_malformed]

/-! ## Ollama non-stream query

Embedding of `OllamaProvider.Query` after the HTTP exchange (ollama.go,
lines 113-135).  `uuid.NewString()` is an external generator of fresh
identifiers; it is modelled by a function `gen : Nat → String` giving
the string returned by its i-th invocation while this response is
normalized.  The library's contract (a freshly generated, non-empty
UUID string each call) becomes the hypotheses on `gen`. -/

/-- Wire struct `ollamaResponse.message.tool_calls[].function`. -/
structure OllamaFunction where
  name : String
  arguments : String
  deriving Repr, DecidableEq

/-- Wire struct `ollamaResponse.message.tool_calls[]`: no provider id. -/
structure OllamaToolCall where
  function : OllamaFunction
  deriving Repr, DecidableEq

/-- Wire struct `ollamaResponse.message`. -/
structure OllamaMessage where
  role : String
  content : String
  toolCalls : List OllamaToolCall
  deriving Repr, DecidableEq

/-- Wire struct `ollamaResponse` (ollama.go, lines 37-51). -/
structure OllamaResponse where
  model : String
  message : OllamaMessage
  done : Bool
  error : String
  deriving Repr, DecidableEq

/-- The tool-call loop of `OllamaProvider.Query` (ollama.go, lines
126-133): the i-th wire call becomes a `ToolCall` whose id is the i-th
freshly generated UUID. -/
def ollamaMapToolCallsFrom (gen : Nat → String) : Nat → List OllamaToolCall → List ToolCall
  | _, [] => []
  | i, tc :: rest =>
    { id := gen i, name := tc.function.name, arguments := tc.function.arguments }
      :: ollamaMapToolCallsFrom gen (i + 1) rest

/-- `OllamaProvider.Query` response mapping (ollama.go, lines 117-135):
an explicit `error` field aborts; otherwise the message content and the
normalized tool calls form the response. -/
def ollamaQuery (gen : Nat → String) (wire : OllamaResponse) : Except String LLMResponse :=
  if wire.error ≠ "" then .error ("ollama API error: " ++ wire.error)
  else .ok { text := wire.message.content,
             toolCalls := ollamaMapToolCallsFrom gen 0 wire.message.toolCalls }

theorem mem_ollamaMapToolCallsFrom (gen : Nat → String) (l : List OllamaToolCall)
    (i : Nat) (tc : ToolCall) (h : tc ∈ ollamaMapToolCallsFrom gen i l) :
    ∃ j, i ≤ j ∧ tc.id = gen j := by
  induction l generalizing i with
  | nil => simp [ollamaMapToolCallsFrom] at h
  | cons hd tl ih =>
    rcases List.mem_cons.mp h with h | h
    · exact ⟨i, le_refl i, by rw [h]⟩
    · obtain ⟨j, hj, hid⟩ := ih (i + 1) h
      exact ⟨j, le_trans (Nat.le_succ i) hj, hid⟩

theorem ollamaMapToolCallsFrom_pairwise (gen : Nat → String)
    (hinj : Function.Injective gen) (l : List OllamaToolCall) (i : Nat) :
    (ollamaMapToolCallsFrom gen i l).Pairwise (fun a b => a.id ≠ b.id) := by
  induction l generalizing i with
  | nil => simp [ollamaMapToolCallsFrom]
  | cons hd tl ih =>
    refine List.Pairwise.cons ?_ (ih (i + 1))
    intro b hb hcontra
    obtain ⟨j, hj, hid⟩ := mem_ollamaMapToolCallsFrom gen tl (i + 1) b hb
    rw [hid] at hcontra
    have hgen : gen i = gen j := hcontra
    have : i = j := hinj hgen
    omega

theorem ollamaMapToolCallsFrom_length (gen : Nat → String) (l : List OllamaToolCall)
    (i : Nat) : (ollamaMapToolCallsFrom gen i l).length = l.length := by
  induction l generalizing i with
  | nil => rfl
  | cons hd tl ih => simp [ollamaMapToolCallsFrom, ih]

/-- C6: when the Ollama reply carries tool calls (which have no
provider id) and no API error, `Query` returns one `ToolCall` per wire
call, each with a non-empty synthesized id, and no two calls of the
same response share an id. -/
theorem ollamaQuery_toolcall_ids (gen : Nat → String) (wire : OllamaResponse)
    (hne : ∀ n, gen n ≠ "") (hinj : Function.Injective gen)
    (herr : wire.error = "") :
    ∃ resp, ollamaQuery gen wire = .ok resp
      ∧ resp.toolCalls.length = wire.message.toolCalls.length
      ∧ (∀ tc ∈ resp.toolCalls, tc.id ≠ "")
      ∧ resp.toolCalls.Pairwise (fun a b => a.id ≠ b.id) := by
  refine ⟨{ text := wire.message.content,
            toolCalls := ollamaMapToolCallsFrom gen 0 wire.message.toolCalls },
          by simp [ollamaQuery, herr], ?_, ?_, ?_⟩
  · exact ollamaMapToolCallsFrom_length gen wire.message.toolCalls 0
  · intro tc htc
    obtain ⟨j, _, hid⟩ := mem_ollamaMapToolCallsFrom gen wire.message.toolCalls 0 tc htc
    rw [hid]
    exact hne j
  · exact ollamaMapToolCallsFrom_pairwise gen hinj wire.message.toolCalls 0

/-- Concrete fresh-id generator for the C6 witness: the i-th call
returns a string of i+1 letters `a`; fresh, non-empty, injective. -/
def idGenEx (n : Nat) : String := ⟨List.replicate (n + 1) 'a'⟩

theorem idGenEx_ne_empty (n : Nat) : idGenEx n ≠ "" := by
  intro h
  have h2 : (idGenEx n).data = ("" : String).data := congrArg String.data h
  change List.replicate (n + 1) 'a' = [] at h2
  simp at h2

theorem idGenEx_injective : Function.Injective idGenEx := by
  intro m n h
  have h2 : (idGenEx m).data.length = (idGenEx n).data.length := by rw [h]
  change (List.replicate (m + 1) 'a').length = (List.replicate (n + 1) 'a').length at h2
  simpa using h2

/-- Concrete Ollama reply with two tool calls for the C6 witness. -/
def ollamaRespEx : OllamaResponse :=
  { model := "qwen3:latest",
    message := { role := "assistant", content := "",
                 toolCalls := [{ function := { name := "get_weather", arguments := "\x7b\"city\":\"Sion\"\x7d" } },
                               { function := { name := "get_time", arguments := "\x7b\x7d" } }] },
    done := true,
    error := "" }

/-- Witness for C6 at a concrete reply with two id-less tool calls. -/
theorem ollamaQuery_toolcall_ids_witness :
    ∃ resp, ollamaQuery idGenEx ollamaRespEx = .ok resp
      ∧ resp.toolCalls.length = ollamaRespEx.message.toolCalls.length
      ∧ (∀ tc ∈ resp.toolCalls, tc.id ≠ "")
      ∧ resp.toolCalls.Pairwise (fun a b => a.id ≠ b.id) :=
  ollamaQuery_toolcall_ids idGenEx ollamaRespEx idGenEx_ne_empty idGenEx_injective rfl

/-! ## Conversation

Embedding of `Conversation` (conversation.go).  The mutex only
serializes access and has no functional content; the message list is
the state.  A mutating method becomes a function from the old state to
the new state plus the returned error (`none` = nil error). -/

/-- `Conversation` state: the message list and the cached prompt. -/
structure Conversation where
  messages : List LLMMessage
  systemPrompt : String
  deriving Repr, DecidableEq

/-- `NewConversation` (conversation.go, lines 20-30). -/
def NewConversation (systemPrompt : String) : Except String Conversation :=
  if systemPrompt = "" then .error "system prompt cannot be empty"
  else .ok { messages := [{ role := RoleSystem, content := systemPrompt }],
             systemPrompt := systemPrompt }

/-- `Conversation.AddUserMessage` (conversation.go, lines 34-42):
reject empty content before touching the state, otherwise append one
user message.  Returns the new state and the error. -/
def AddUserMessage (c : Conversation) (content : String) : Conversation × Option String :=
  if content = "" then (c, some "user message content cannot be empty")
  else ({ c with messages := c.messages ++ [{ role := RoleUser, content := content }] }, none)

/-- C8: `AddUserMessage ""` errors and leaves the message list
unchanged; with non-empty content it succeeds and appends exactly one
user message at the end. -/
theorem addUserMessage_spec (c : Conversation) (content : String) :
    ((AddUserMessage c "").2.isSome ∧ (AddUserMessage c "").1 = c)
    ∧ (content ≠ "" →
        (AddUserMessage c content).2 = none
        ∧ (AddUserMessage c content).1.messages
            = c.messages ++ [{ role := RoleUser, content := content }]) := by
  constructor
  · simp [AddUserMessage]
  · intro h
    simp [AddUserMessage, h]

/-- Concrete conversation for the C8 witness. -/
def convEx : Conversation :=
  { messages := [{ role := RoleSystem, content := "You are a test assistant." }],
    systemPrompt := "You are a test assistant." }

/-- Witness for C8: empty content rejected without change, `"Hello,
world!"` appended as one user message. -/
theorem addUserMessage_spec_witness :
    ((AddUserMessage convEx "").2.isSome ∧ (AddUserMessage convEx "").1 = convEx)
    ∧ ((AddUserMessage convEx "Hello, world!").2 = none
        ∧ (AddUserMessage convEx "Hello, world!").1.messages
            = convEx.messages ++ [{ role := RoleUser, content := "Hello, world!" }]) :=
  ⟨(addUserMessage_spec convEx "Hello, world!").1,
   (addUserMessage_spec convEx "Hello, world!").2 (by decide)⟩

/-! ## Snapshot independence (`Conversation.MessagesCopy`)

`MessagesCopy` (conversation.go, lines 74-79) returns
`slices.Clone(c.Messages)`.  Whether later mutation of the returned
slice can affect the conversation is a question about slice backing
arrays, so those are modelled explicitly: a heap maps a reference
(allocation index) to the stored message list; `slices.Clone`
allocates a fresh backing array holding the same elements. -/

/-- The heap of slice backing arrays: the next fresh allocation index
and the contents stored at each index. -/
structure SliceHeap where
  next : Nat
  store : Nat → List LLMMessage

/-- Read the slice behind a reference. -/
def readSlice (h : SliceHeap) (r : Nat) : List LLMMessage :=
  h.store r

/-- Mutate the slice behind a reference in place (what later writes
through the returned snapshot slice do). -/
def writeSlice (h : SliceHeap) (r : Nat) (v : List LLMMessage) : SliceHeap :=
  { h with store := fun i => if i = r then v else h.store i }

/-- Allocate a fresh backing array holding `v`; returns the new heap
and the fresh reference. -/
def allocSlice (h : SliceHeap) (v : List LLMMessage) : SliceHeap × Nat :=
  ({ next := h.next + 1, store := fun i => if i = h.next then v else h.store i }, h.next)

/-- A conversation whose message list lives behind a heap reference. -/
structure ConversationRef where
  messagesRef : Nat
  deriving Repr, DecidableEq

/-- `Conversation.MessagesCopy` (conversation.go, lines 74-79):
`slices.Clone` copies the current messages into a freshly allocated
backing array and returns a reference to it. -/
def MessagesCopy (h : SliceHeap) (c : ConversationRef) : SliceHeap × Nat :=
  allocSlice h (readSlice h c.messagesRef)

/-- C9: the snapshot returned by `MessagesCopy` is an independent copy:
it holds the same messages, lives behind a different reference than the
conversation's list, and any later write through the snapshot reference
leaves the conversation's message list unchanged. -/
theorem messagesCopy_independent (h : SliceHeap) (c : ConversationRef)
    (hv : c.messagesRef < h.next) :
    (MessagesCopy h c).2 ≠ c.messagesRef
    ∧ readSlice (MessagesCopy h c).1 (MessagesCopy h c).2 = readSlice h c.messagesRef
    ∧ ∀ v, readSlice (writeSlice (MessagesCopy h c).1 (MessagesCopy h c).2 v) c.messagesRef
        = readSlice h c.messagesRef := by
  have hne : h.next ≠ c.messagesRef := by omega
  refine ⟨?_, ?_, ?_⟩
  · simpa [MessagesCopy, allocSlice] using hne
  · simp [MessagesCopy, allocSlice, readSlice]
  · intro v
    simp [MessagesCopy, allocSlice, readSlice, writeSlice, hne, Ne.symm hne]

/-- Concrete heap for the C9 witness: one allocated slice holding a
system message, referenced by the conversation. -/
def sliceHeapEx : SliceHeap :=
  { next := 1,
    store := fun i => if i = 0 then [{ role := RoleSystem, content := "sys" }] else [] }

/-- Witness for C9 on a concrete heap, with a concrete later write
through the snapshot reference. -/
theorem messagesCopy_independent_witness :
    (MessagesCopy sliceHeapEx { messagesRef := 0 }).2 ≠ 0
    ∧ readSlice (MessagesCopy sliceHeapEx { messagesRef := 0 }).1
        (MessagesCopy sliceHeapEx { messagesRef := 0 }).2 = readSlice sliceHeapEx 0
    ∧ readSlice
        (writeSlice (MessagesCopy sliceHeapEx { messagesRef := 0 }).1
          (MessagesCopy sliceHeapEx { messagesRef := 0 }).2
          [{ role := RoleUser, content := "overwritten" }]) 0
        = readSlice sliceHeapEx 0 :=
  ⟨(messagesCopy_independent sliceHeapEx { messagesRef := 0 } (by decide)).1,
   (messagesCopy_independent sliceHeapEx { messagesRef := 0 } (by decide)).2.1,
   (messagesCopy_independent sliceHeapEx { messagesRef := 0 } (by decide)).2.2
     [{ role := RoleUser, content := "overwritten" }]⟩

/-! ## OpenAI wire encoding of messages

Embedding of `ToOpenAIChatMessages` (tools.go, lines 11-42).  The Go
code builds a `map[string]any` per message; the keys it can set form
the record below, `Option` marking keys that may be absent and
`content : Option String` distinguishing a string value (`some`) from
JSON null (`none`). -/

/-- One encoded `tool_calls` entry:
`{id, type:"function", function:{name, arguments}}`. -/
structure EncodedToolCall where
  id : String
  type : String
  functionName : String
  functionArguments : String
  deriving Repr, DecidableEq

/-- One encoded chat message object. -/
structure EncodedMessage where
  role : String
  content : Option String
  name : Option String
  toolCallID : Option String
  toolCalls : Option (List EncodedToolCall)
  deriving Repr, DecidableEq

/-- The per-call encoding inside the `tool_calls` array (tools.go,
lines 27-34). -/
def encodeToolCall (tc : ToolCall) : EncodedToolCall :=
  { id := tc.id, type := "function", functionName := tc.name,
    functionArguments := tc.arguments }

/-- The per-message body of `ToOpenAIChatMessages` (tools.go, lines
14-38): start from role/content, add name and tool_call_id when
non-empty, and when tool calls are present encode them and set the
content key to null. -/
def toOpenAIChatMessage (msg : LLMMessage) : EncodedMessage :=
  let item : EncodedMessage :=
    { role := msg.role, content := some msg.content,
      name := if msg.name ≠ "" then some msg.name else none,
      toolCallID := if msg.toolCallID ≠ "" then some msg.toolCallID else none,
      toolCalls := none }
  if 0 < msg.toolCalls.length then
    { item with toolCalls := some (msg.toolCalls.map encodeToolCall),
                content := none }
  else item

/-- `ToOpenAIChatMessages` (tools.go, lines 11-42). -/
def ToOpenAIChatMessages (msgs : List LLMMessage) : List EncodedMessage :=
  msgs.map toOpenAIChatMessage

/-- C10: in the OpenAI-compatible wire encoding, a message with tool
calls gets `content = null` (its text is discarded) while its
`tool_calls` array keeps id, name and argument bytes in order; a
message without tool calls keeps its content verbatim. -/
theorem toOpenAIChatMessages_content_null (msgs : List LLMMessage) :
    ToOpenAIChatMessages msgs = msgs.map toOpenAIChatMessage
    ∧ ∀ msg ∈ msgs,
        (msg.toolCalls ≠ [] →
          (toOpenAIChatMessage msg).content = none
          ∧ (toOpenAIChatMessage msg).toolCalls
              = some (msg.toolCalls.map encodeToolCall))
        ∧ (msg.toolCalls = [] →
          (toOpenAIChatMessage msg).content = some msg.content) := by
  refine ⟨rfl, ?_⟩
  intro msg _
  constructor
  · intro h
    have hlen : 0 < msg.toolCalls.length := List.length_pos.mpr h
    constructor <;> simp [toOpenAIChatMessage, hlen]
  · intro h
    simp [toOpenAIChatMessage, h]

/-- Concrete assistant message carrying text and one tool call, for
the C10 witness. -/
def msgWithToolCallEx : LLMMessage :=
  { role := RoleAssistant, content := "this text is discarded",
    toolCalls := [{ id := "call_9", name := "get_weather", arguments := "\x7b\"city\":\"Nyon\"\x7d" }] }

/-- Witness for C10: the concrete message's non-empty content is
replaced by null and its tool call is preserved. -/
theorem toOpenAIChatMessages_content_null_witness :
    (toOpenAIChatMessage msgWithToolCallEx).content = none
    ∧ (toOpenAIChatMessage msgWithToolCallEx).toolCalls
        = some (msgWithToolCallEx.toolCalls.map encodeToolCall) :=
  ((toOpenAIChatMessages_content_null [msgWithToolCallEx]).2 msgWithToolCallEx
    (by simp)).1 (by decide)

end GoAiLlm
